import Mathlib

/-!
Verification of the dimension-range descriptor handling in the GeoMet
authentication demo notebooks.

The notebooks select forecast times by splitting a server-supplied
descriptor string of the form `"<start>/<end>/<step>"`:

  oldest_fcast, newest_fcast, issue_interval =
      wms_auth[layer_name].dimensions['reference_time']['values'][0].split('/')

  first_datetime, last_datetime, datetime_interval =
      wms_auth[layer_name].dimensions['time']['values'][0].split('/')

Python's `str.split('/')` (with a one-character separator) cuts the string
at every occurrence of `'/'`, keeping empty fields, and the three-name
tuple unpacking raises `ValueError` unless the resulting list has exactly
three elements; no name is bound in that case.  We embed this semantics
below: `splitSlash` models `split('/')` on the character list of the
string, and `parse` models the split followed by three-name unpacking,
with the failure reported as the `MalformedDescriptor` condition.
-/

namespace GeoMet

/-- The failure condition of descriptor parsing: the input did not split
into exactly three fields (Python's `ValueError` from tuple unpacking,
named `MalformedDescriptor` in the design). -/
inductive ParseError where
  | MalformedDescriptor
deriving DecidableEq, Repr

/-- Embedding of Python's `s.split('/')` on the character list of `s`:
cut at every `'/'`, keeping empty fields.  The result is always a
non-empty list of fields. -/
def splitSlash : List Char → List (List Char)
  | [] => [[]]
  | c :: cs =>
    let r := splitSlash cs
    if c = '/' then [] :: r
    else (c :: r.headI) :: r.tail

/-- Joining a field list with `'/'`; inverse of `splitSlash`. -/
def joinSlash : List (List Char) → List Char
  | [] => []
  | [f] => f
  | f :: g :: fs => f ++ '/' :: joinSlash (g :: fs)

/-- `parse` models the notebook's
`a, b, c = descriptor.split('/')`: split at `'/'` and unpack into three
fields, failing with `MalformedDescriptor` when the field count is not
three. -/
def parse (descriptor : String) : Except ParseError (String × String × String) :=
  match splitSlash descriptor.data with
  | [a, b, c] => .ok (a.asString, b.asString, c.asString)
  | _ => .error .MalformedDescriptor

/-- The `DimensionRange` entity of the data model: the raw descriptor
together with its three parsed fields. -/
structure DimensionRange where
  rawDescriptor : String
  start : String
  stop : String
  step : String
deriving DecidableEq, Repr

/-- Constructing a `DimensionRange` from a descriptor string: succeeds
exactly when `parse` does. -/
def mkDimensionRange (descriptor : String) : Except ParseError DimensionRange :=
  match parse descriptor with
  | .ok (a, b, c) => .ok ⟨descriptor, a, b, c⟩
  | .error e => .error e

/-- The notebook's dimension-range resolution
`dimensions[...]['values'][0].split('/')`: take entry 0 of the values
list and parse it.  Python's `[0]` raises `IndexError` on an empty list,
modelled as `none`. -/
def resolveDimensionRange (values : List String) :
    Option (Except ParseError (String × String × String)) :=
  match values with
  | [] => none
  | v :: _ => some (parse v)

/-! ### Basic lemmas about `splitSlash` -/

theorem splitSlash_ne_nil (l : List Char) : splitSlash l ≠ [] := by
  cases l with
  | nil => simp [splitSlash]
  | cons c cs =>
    simp only [splitSlash]
    split <;> simp

theorem splitSlash_length (l : List Char) :
    (splitSlash l).length = l.count '/' + 1 := by
  induction l with
  | nil => simp [splitSlash]
  | cons c cs ih =>
    simp only [splitSlash]
    by_cases hc : c = '/'
    · subst hc
      simp [List.count_cons, ih]
    · have hne := splitSlash_ne_nil cs
      rw [if_neg hc]
      rcases h : splitSlash cs with _ | ⟨g, fs⟩
      · exact absurd h hne
      · rw [h] at ih
        simp only [List.length_cons] at ih ⊢
        simp [List.count_cons, hc, ← ih]

theorem splitSlash_no_slash (l : List Char) (h : '/' ∉ l) :
    splitSlash l = [l] := by
  induction l with
  | nil => rfl
  | cons c cs ih =>
    simp only [List.mem_cons, not_or] at h
    simp only [splitSlash]
    rw [if_neg (fun hc => h.1 hc.symm), ih h.2]
    simp

theorem splitSlash_append_slash (l rest : List Char) (h : '/' ∉ l) :
    splitSlash (l ++ '/' :: rest) = l :: splitSlash rest := by
  induction l with
  | nil => simp [splitSlash]
  | cons c cs ih =>
    simp only [List.mem_cons, not_or] at h
    simp only [List.cons_append, splitSlash, List.append_eq]
    rw [if_neg (fun hc => h.1 hc.symm), ih h.2]
    simp

theorem joinSlash_splitSlash (l : List Char) :
    joinSlash (splitSlash l) = l := by
  induction l with
  | nil => rfl
  | cons c cs ih =>
    have hne := splitSlash_ne_nil cs
    rcases h : splitSlash cs with _ | ⟨g, fs⟩
    · exact absurd h hne
    · rw [h] at ih
      simp only [splitSlash, h]
      by_cases hc : c = '/'
      · subst hc
        simp [joinSlash, ih]
      · rw [if_neg hc]
        simp only [List.headI, List.tail]
        cases fs with
        | nil => simpa [joinSlash] using congrArg (c :: ·) ih
        | cons h2 t2 => simpa [joinSlash] using congrArg (c :: ·) ih

theorem data_asString (l : List Char) : (List.asString l).data = l := rfl

theorem asString_data (s : String) : s.data.asString = s := by
  cases s
  rfl

/-! ### Characterising `parse` by the separator count -/

theorem exists_three_of_length (l : List (List Char)) (h : l.length = 3) :
    ∃ x y z, l = [x, y, z] := by
  rcases l with _ | ⟨x, _ | ⟨y, _ | ⟨z, _ | ⟨w, t⟩⟩⟩⟩ <;> simp_all

theorem parse_ok_of_count (s : String) (h : s.data.count '/' = 2) :
    ∃ a b c, parse s = .ok (a, b, c) := by
  have hlen : (splitSlash s.data).length = 3 := by rw [splitSlash_length, h]
  obtain ⟨x, y, z, hxyz⟩ := exists_three_of_length _ hlen
  exact ⟨x.asString, y.asString, z.asString, by simp [parse, hxyz]⟩

theorem parse_error_of_count (s : String) (h : s.data.count '/' ≠ 2) :
    parse s = .error .MalformedDescriptor := by
  have hlen : (splitSlash s.data).length ≠ 3 := by rw [splitSlash_length]; omega
  unfold parse
  split
  · rename_i x y z heq
    exact absurd (by rw [heq]; rfl) hlen
  · rfl

theorem count_of_parse_ok (s : String) (t : String × String × String)
    (h : parse s = .ok t) : s.data.count '/' = 2 := by
  unfold parse at h
  split at h
  · rename_i x y z heq
    have h3 : (splitSlash s.data).length = 3 := by rw [heq]; rfl
    rw [splitSlash_length] at h3
    omega
  · exact absurd h (by simp)

theorem parse_ok_elim (s : String) (a b c : String)
    (h : parse s = .ok (a, b, c)) :
    splitSlash s.data = [a.data, b.data, c.data] := by
  unfold parse at h
  split at h
  · rename_i x y z heq
    simp only [Except.ok.injEq, Prod.mk.injEq] at h
    obtain ⟨ha, hb, hc⟩ := h
    rw [heq, ← ha, ← hb, ← hc]
    simp [data_asString]
  · exact absurd h (by simp)

/-! ### The claims -/

/-- C1: for every descriptor `"<a>/<b>/<c>"` whose fields contain no `'/'`,
`parse` returns the triple `(a, b, c)` exactly — the three substrings in
original order, byte-for-byte unmodified. -/
theorem parse_wellformed_exact (a b c : String)
    (ha : '/' ∉ a.data) (hb : '/' ∉ b.data) (hc : '/' ∉ c.data) :
    parse (a ++ "/" ++ b ++ "/" ++ c) = .ok (a, b, c) := by
  have hslash : ("/" : String).data = ['/'] := rfl
  have hdata : (a ++ "/" ++ b ++ "/" ++ c).data
      = a.data ++ '/' :: (b.data ++ '/' :: c.data) := by
    simp [String.data_append, hslash]
  unfold parse
  rw [hdata, splitSlash_append_slash _ _ ha, splitSlash_append_slash _ _ hb,
    splitSlash_no_slash _ hc]
  simp [asString_data]

/-- Witness for C1 at the notebook's reference-time descriptor. -/
theorem parse_wellformed_exact_witness :
    parse ("2022-06-19T12:00:00Z" ++ "/" ++ "2022-06-21T00:00:00Z" ++ "/" ++ "PT12H")
      = .ok ("2022-06-19T12:00:00Z", "2022-06-21T00:00:00Z", "PT12H") :=
  parse_wellformed_exact "2022-06-19T12:00:00Z" "2022-06-21T00:00:00Z" "PT12H"
    (by decide) (by decide) (by decide)

/-- C2: for every input whose count of `'/'` characters is not exactly two,
`parse` fails with `MalformedDescriptor`; the failure is signaled to the
caller rather than silently truncating or padding. -/
theorem parse_fails_on_bad_separator_count (s : String)
    (h : s.data.count '/' ≠ 2) :
    parse s = .error .MalformedDescriptor :=
  parse_error_of_count s h

/-- Witness for C2 at a zero-separator input. -/
theorem parse_fails_on_bad_separator_count_witness :
    ("onlyonefield" : String).data.count '/' ≠ 2 ∧
      parse "onlyonefield" = .error .MalformedDescriptor :=
  ⟨by decide, parse_fails_on_bad_separator_count "onlyonefield" (by decide)⟩

/-- C3: when `parse` fails on a malformed descriptor, the operation yields
no output tuple: there are no field values `a`, `b`, `c` for which a
success result is produced (all-or-nothing error branch). -/
theorem parse_error_atomic (s : String)
    (h : parse s = .error .MalformedDescriptor) :
    ∀ a b c : String, parse s ≠ .ok (a, b, c) := by
  intro a b c hok
  rw [h] at hok
  exact Except.noConfusion hok

/-- Witness for C3 at a four-field input. -/
theorem parse_error_atomic_witness :
    parse "w/x/y/z" ≠ .ok ("w", "x", "y") :=
  parse_error_atomic "w/x/y/z" rfl "w" "x" "y"

/-- C4: dimension-range resolution consumes only entry 0 of the values
list: on any non-empty list it parses exactly the head, and the remaining
entries never influence the result. -/
theorem resolveDimensionRange_uses_only_head (v : String)
    (rest₁ rest₂ : List String) :
    resolveDimensionRange (v :: rest₁) = some (parse v) ∧
      resolveDimensionRange (v :: rest₁) = resolveDimensionRange (v :: rest₂) :=
  ⟨rfl, rfl⟩

/-- C5: every successfully constructed `DimensionRange` has a
`rawDescriptor` with exactly two `'/'` separators, and no input without
exactly two separators ever yields a constructed `DimensionRange`. -/
theorem mkDimensionRange_separator_invariant :
    (∀ (s : String) (dr : DimensionRange), mkDimensionRange s = .ok dr →
        dr.rawDescriptor.data.count '/' = 2) ∧
      ∀ s : String, s.data.count '/' ≠ 2 →
        ∀ dr : DimensionRange, mkDimensionRange s ≠ .ok dr := by
  constructor
  · intro s dr h
    unfold mkDimensionRange at h
    split at h
    · rename_i a b c heq
      simp only [Except.ok.injEq] at h
      rw [← h]
      exact count_of_parse_ok s (a, b, c) heq
    · exact absurd h (by simp)
  · intro s hs dr h
    unfold mkDimensionRange at h
    split at h
    · rename_i a b c heq
      exact hs (count_of_parse_ok s (a, b, c) heq)
    · exact absurd h (by simp)

/-- Witness for C5 at a concrete well-formed descriptor. -/
theorem mkDimensionRange_separator_invariant_witness :
    (⟨"x/y/z", "x", "y", "z"⟩ : DimensionRange).rawDescriptor.data.count '/' = 2 :=
  mkDimensionRange_separator_invariant.1 "x/y/z" ⟨"x/y/z", "x", "y", "z"⟩ rfl

/-- C6: `parse` is deterministic: two invocations on the same descriptor
string yield identical results (it is a pure function of its input). -/
theorem parse_deterministic (s t : String) (h : s = t) :
    parse s = parse t :=
  congrArg parse h

/-- Witness for C6 at a concrete descriptor. -/
theorem parse_deterministic_witness :
    parse "p/q/r" = parse "p/q/r" :=
  parse_deterministic "p/q/r" "p/q/r" rfl

/-- C7: the two concrete descriptors of the spec parse to exactly the
listed triples. -/
theorem parse_spec_scenarios :
    parse "2022-06-19T12:00:00Z/2022-06-21T00:00:00Z/PT12H"
        = .ok ("2022-06-19T12:00:00Z", "2022-06-21T00:00:00Z", "PT12H") ∧
      parse "2022-06-21T01:00:00Z/2022-06-27T00:00:00Z/PT1H"
        = .ok ("2022-06-21T01:00:00Z", "2022-06-27T00:00:00Z", "PT1H") :=
  ⟨rfl, rfl⟩

/-- C8: `parse "onlyonefield"` (zero separators) and `parse "a/b/c/d"`
(three separators) both fail with `MalformedDescriptor`; in particular the
four-field input is not turned into a merged triple `("a", "b", "c/d")`. -/
theorem parse_malformed_scenarios :
    parse "onlyonefield" = .error .MalformedDescriptor ∧
      parse "a/b/c/d" = .error .MalformedDescriptor ∧
      parse "a/b/c/d" ≠ .ok ("a", "b", "c/d") := by
  refine ⟨rfl, rfl, fun h => ?_⟩
  rw [show parse "a/b/c/d" = Except.error ParseError.MalformedDescriptor from rfl] at h
  exact Except.noConfusion h

/-- C9: reconstruction round-trip — whenever `parse` succeeds with
`(start, stop, step)`, the concatenation
`start ++ "/" ++ stop ++ "/" ++ step` equals the original input. -/
theorem parse_reconstructs_input (s a b c : String)
    (h : parse s = .ok (a, b, c)) :
    a ++ "/" ++ b ++ "/" ++ c = s := by
  have hsplit := parse_ok_elim s a b c h
  have hjoin := joinSlash_splitSlash s.data
  rw [hsplit] at hjoin
  apply String.ext
  have hslash : ("/" : String).data = ['/'] := rfl
  simp only [String.data_append, hslash]
  simpa [joinSlash] using hjoin

/-- Witness for C9 at a concrete descriptor. -/
theorem parse_reconstructs_input_witness :
    ("u" ++ "/" ++ "v" ++ "/" ++ "w" : String) = "u/v/w" :=
  parse_reconstructs_input "u/v/w" "u" "v" "w" rfl

/-- C10: `parse` performs no content validation: any input with exactly
two `'/'` separators succeeds even when fields are empty, and in
particular `parse "//"` returns the triple of three empty strings. -/
theorem parse_no_content_validation :
    (∀ s : String, s.data.count '/' = 2 → (parse s).isOk = true) ∧
      parse "//" = .ok ("", "", "") := by
  refine ⟨fun s h => ?_, rfl⟩
  obtain ⟨a, b, c, hok⟩ := parse_ok_of_count s h
  rw [hok]
  rfl

/-- Witness for C10 at a two-separator input with one non-empty field. -/
theorem parse_no_content_validation_witness :
    (parse "/x/").isOk = true :=
  parse_no_content_validation.1 "/x/" (by decide)

end GeoMet
